import Mathlib

/-!
Verification development for the DebateRAG repository.

The embedding translates `src/debate_pipeline.py` (the debate engine
`stream_debate`, the batched adapter `run_debate`, and the preview helper
`_compact`) and the event bridge of `src/app.py` (`debate_websocket`) into
Lean definitions.  External collaborators (chunker, retriever, completion
service, wall clock) are abstracted as fields of an `Env` record, exactly
as the spec declares them black boxes.  Machine behaviour that the source
performs on Python strings (`str.strip`, `str.split`, `str.rstrip`,
slicing, `" ".join`) is modelled character-exactly on Lean `String`s.
-/

namespace DebateRAG

/-- Python whitespace characters recognised by `str.split` / `str.strip`
(ASCII subset; documents are modelled over this alphabet). -/
def isPySpace (c : Char) : Bool :=
  c = ' ' || c = '\t' || c = '\n' || c = '\r' || c = '\x0b' || c = '\x0c'

/-- Python `s.strip()`: drop leading and trailing whitespace. -/
def pyStrip (s : String) : String :=
  String.mk (((s.toList.dropWhile isPySpace).reverse.dropWhile isPySpace).reverse)

/-- Python `s.rstrip()`: drop trailing whitespace. -/
def pyRstrip (s : String) : String :=
  String.mk ((s.toList.reverse.dropWhile isPySpace).reverse)

/-- Helper for `pySplit`: walk the characters, accumulating the current
word in reverse. -/
def pySplitAux : List Char → List Char → List String
  | [], acc => if acc.isEmpty then [] else [String.mk acc.reverse]
  | c :: cs, acc =>
    if isPySpace c then
      if acc.isEmpty then pySplitAux cs [] else String.mk acc.reverse :: pySplitAux cs []
    else
      pySplitAux cs (c :: acc)

/-- Python `s.split()` (no argument): split on runs of whitespace,
discarding empty fields. -/
def pySplit (s : String) : List String :=
  pySplitAux s.toList []

/-- `_compact` from `debate_pipeline.py`:
`cleaned = " ".join(text.split())`; return `cleaned` when it fits in
`limit` characters, else `cleaned[: limit - 3].rstrip() + "..."`.
The source only ever calls it with the default `limit = 200`. -/
def _compact (text : String) (limit : Nat) : String :=
  let cleaned := String.intercalate " " (pySplit text)
  if cleaned.length ≤ limit then cleaned
  else pyRstrip (String.mk (cleaned.toList.take (limit - 3))) ++ "..."

/-- A retrieved chunk: `page_content` plus the `doc_id` metadata entry
(`metadata.get("doc_id")` may be absent, hence `Option`). -/
structure Chunk where
  page_content : String
  doc_id : Option Nat
deriving DecidableEq, Repr

/-- The `DebateStep` dataclass of `debate_pipeline.py`. -/
structure DebateStep where
  stage : String
  speaker : String
  message : String
  round : Option Nat
  doc_id : Option Nat
deriving DecidableEq, Repr

/-- The `stats` dictionary attached to the terminal event.
`embedding_seconds` is the rounded wall-clock value, taken opaquely from
the environment. -/
structure Stats where
  documents : Nat
  chunks : Nat
  retrieved : Nat
  model : String
  rounds : Nat
  embedding_seconds : Int
deriving DecidableEq, Repr

/-- The events yielded by the `stream_debate` generator:
`{"event": "step", "data": ...}` and the terminal
`{"event": "done", ...}`. -/
inductive Event where
  | step (data : DebateStep)
  | done (final_answer : String) (stats : Stats) (query : String)
deriving DecidableEq, Repr

/-- One invocation of `_run_agent(model, query, system_prompt)`:
the user message is always `query`, the system prompt carries the stage
content. -/
structure AgentCall where
  query : String
  system_prompt : String
deriving DecidableEq, Repr

/-- The observable behaviour of one successful engine run: the yielded
events in order, and the completion-service calls in call order. -/
structure EngineRun where
  events : List Event
  calls : List AgentCall
deriving DecidableEq, Repr

/-- The validation failures `stream_debate` can raise before yielding
anything: `RuntimeError` for the missing credential (spec:
`ConfigurationError`) and `ValueError` for no non-empty documents (spec:
`InputError`). -/
inductive PipelineError where
  | configurationError (msg : String)
  | inputError (msg : String)
deriving DecidableEq, Repr

/-- The external collaborators, abstracted:
* `apiKeyPresent` — truthiness of `os.getenv("OPENAI_API_KEY")`;
* `split` — the chunker (`RecursiveCharacterTextSplitter.create_documents`
  applied to the cleaned documents, metadata determined by position);
* `search` — the retriever (`vector_store.similarity_search` over the
  indexed chunks);
* `agentOutput` — the raw completion-service text for a `(query, system
  prompt)` pair (`_run_agent` strips it before use);
* `embeddingSeconds` — the rounded indexing wall-clock reading. -/
structure Env where
  apiKeyPresent : Bool
  split : List String → List Chunk
  search : List Chunk → String → Nat → List Chunk
  agentOutput : String → String → String
  embeddingSeconds : Int

/-- `_run_agent`: run the single-shot agent and `.strip()` the final
content. -/
def runAgent (env : Env) (query system_prompt : String) : String :=
  pyStrip (env.agentOutput query system_prompt)

/-- The evidence-stage system prompt after `prompt.format(query=..., doc=...)`. -/
def evidencePrompt (query doc : String) : String :=
  "You are an agent reading a single document to answer the user question.\n\n" ++
  "Question: " ++ query ++ "\n" ++
  "Document: " ++ doc ++ "\n" ++
  "Only use the document. If the document does not contain an answer, say so. " ++
  "Provide a short answer and a brief explanation.\n" ++
  "Format: Answer: <answer>. Explanation: <why>."

/-- The ambiguity-check system prompt after
`ambiguity_prompt.format(query=..., responses=...)`. -/
def ambiguityPrompt (query responses : String) : String :=
  "You detect ambiguity versus factual conflict in answers.\n\n" ++
  "Question: " ++ query ++ "\n" ++
  "Responses: " ++ responses ++ "\n" ++
  "If answers conflict, suggest clarification questions or guidance to disambiguate. " ++
  "If the question is ambiguous, list the plausible interpretations.\n" ++
  "Format: Guidance: <guidance>. Questions: <questions>."

/-- The debate-round system prompt after
`debate_prompt.format(query=..., doc=..., responses=..., guidance=...)`. -/
def debatePrompt (query doc responses guidance : String) : String :=
  "You are an agent refining your answer using peer responses and ambiguity guidance.\n\n" ++
  "Question: " ++ query ++ "\n" ++
  "Document: " ++ doc ++ "\n" ++
  "Peer responses: " ++ responses ++ "\n" ++
  "Ambiguity guidance: " ++ guidance ++ "\n" ++
  "Only use the document and the provided responses. Clarify what you are referring to.\n" ++
  "Format: Answer: <answer>. Explanation: <why>."

/-- The synthesis system prompt after
`summarizer_prompt.format(query=..., responses=...)`. -/
def summarizerPrompt (query responses : String) : String :=
  "You synthesize a final answer based only on the provided responses.\n\n" ++
  "Question: " ++ query ++ "\n" ++
  "Responses: " ++ responses ++ "\n" ++
  "If answers disagree because the question is ambiguous, list all valid answers " ++
  "and ask the user to clarify.\n" ++
  "Format: Final Answer: <answer>."

/-- Python rendering of `metadata.get("doc_id")` inside the f-string
`f"[{idx}] Doc {doc_id}: {excerpt}"`: `None` prints as `"None"`. -/
def docIdText : Option Nat → String
  | none => "None"
  | some n => toString n

/-- The `retrieval_lines` loop: `f"[{idx}] Doc {doc_id}: {excerpt}"` with
`excerpt = _compact(doc.page_content)`, `idx` enumerated from 1.  The
truncation `limit` (200 in the source) is threaded explicitly so the
presentation-only property can be stated. -/
def retrievalLines (limit : Nat) : Nat → List Chunk → List String
  | _, [] => []
  | idx, doc :: rest =>
    ("[" ++ toString idx ++ "] Doc " ++ docIdText doc.doc_id ++ ": " ++
      _compact doc.page_content limit) :: retrievalLines limit (idx + 1) rest

/-- `cleaned_docs = [doc.strip() for doc in documents if doc.strip()]`. -/
def cleanedDocs (documents : List String) : List String :=
  (documents.filter (fun doc => !(pyStrip doc == ""))).map pyStrip

/-- `all_splits = text_splitter.create_documents(cleaned_docs, metadatas)`. -/
def allSplits (env : Env) (documents : List String) : List Chunk :=
  env.split (cleanedDocs documents)

/-- `retrieved_docs = vector_store.similarity_search(query, k=min(top_k,
len(all_splits)))`. -/
def retrievedDocs (env : Env) (documents : List String) (query : String)
    (top_k : Nat) : List Chunk :=
  env.search (allSplits env documents) query (min top_k (allSplits env documents).length)

/-- Result of one per-chunk loop (evidence stage or one debate round's
chunk pass): the yielded events, the accumulated `intermediate_results`,
and the agent calls made, each in loop order. -/
structure ChunkLoopResult where
  events : List Event
  answers : List String
  calls : List AgentCall
deriving DecidableEq, Repr

/-- The evidence loop (`for idx, doc in enumerate(retrieved_docs, start=1)`):
per chunk one agent call on `evidencePrompt`, one answer appended, one
"evidence" step with `round=0` yielded. -/
def evidenceLoop (env : Env) (query : String) : Nat → List Chunk → ChunkLoopResult
  | _, [] => ⟨[], [], []⟩
  | idx, doc :: rest =>
    let response := runAgent env query (evidencePrompt query doc.page_content)
    let tail := evidenceLoop env query (idx + 1) rest
    ⟨Event.step ⟨"evidence", "Doc Agent " ++ toString idx, response, some 0, doc.doc_id⟩
        :: tail.events,
      response :: tail.answers,
      ⟨query, evidencePrompt query doc.page_content⟩ :: tail.calls⟩

/-- One debate round's chunk loop: per chunk one agent call on
`debatePrompt` built from the frozen `history_results` and current
guidance, one answer appended, one "debate" step yielded. -/
def debateChunkLoop (env : Env) (query : String) (history : List String)
    (guidance : String) (round_idx : Nat) : Nat → List Chunk → ChunkLoopResult
  | _, [] => ⟨[], [], []⟩
  | idx, doc :: rest =>
    let response := runAgent env query
      (debatePrompt query doc.page_content (String.intercalate "\n" history) guidance)
    let tail := debateChunkLoop env query history guidance round_idx (idx + 1) rest
    ⟨Event.step ⟨"debate", "Debater " ++ toString idx, response, some round_idx, doc.doc_id⟩
        :: tail.events,
      response :: tail.answers,
      ⟨query, debatePrompt query doc.page_content (String.intercalate "\n" history) guidance⟩
        :: tail.calls⟩

/-- Result of the outer debate-round loop. -/
structure RoundsResult where
  events : List Event
  answers : List String
  guidance : String
  calls : List AgentCall
deriving DecidableEq, Repr

/-- The outer loop `for round_idx in range(1, rounds + 1)` of
`stream_debate`, with the remaining iteration count made explicit:
`round_idx` is the 1-based round about to run and `remaining` how many
rounds are left.  State threaded exactly as in the source:
`history_results` is the previous `intermediate_results`, the ambiguity
guidance is recomputed from the new answers after the chunk pass. -/
def debateRounds (env : Env) (query : String) (retrieved : List Chunk) :
    Nat → Nat → List String → String → RoundsResult
  | _, 0, answers, guidance => ⟨[], answers, guidance, []⟩
  | round_idx, remaining + 1, answers, guidance =>
    let pass := debateChunkLoop env query answers guidance round_idx 1 retrieved
    let newGuidance := runAgent env query
      (ambiguityPrompt query (String.intercalate "\n" pass.answers))
    let rest := debateRounds env query retrieved (round_idx + 1) remaining
      pass.answers newGuidance
    ⟨pass.events
        ++ [Event.step ⟨"ambiguity", "Ambiguity Solver", newGuidance, some round_idx, none⟩]
        ++ rest.events,
      rest.answers, rest.guidance,
      pass.calls ++ [⟨query, ambiguityPrompt query (String.intercalate "\n" pass.answers)⟩]
        ++ rest.calls⟩

/-- The body of the `stream_debate` generator after validation succeeds:
the full yielded event sequence and the completion-service call trace.
`limit` is the `_compact` truncation bound (200 in the source). -/
def streamBody (env : Env) (documents : List String) (query model_name : String)
    (top_k rounds limit : Nat) : EngineRun :=
  let cleaned_docs := cleanedDocs documents
  let all_splits := allSplits env documents
  let retrieved_docs := retrievedDocs env documents query top_k
  let setupStep : Event := .step ⟨"setup", "System",
    "Received " ++ toString cleaned_docs.length ++ " documents. Split into " ++
      toString all_splits.length ++ " chunks.", none, none⟩
  let indexingStep : Event := .step ⟨"indexing", "Indexer",
    "Embedding documents for retrieval...", none, none⟩
  let retrievedCountStep : Event := .step ⟨"setup", "System",
    "Retrieved " ++ toString retrieved_docs.length ++ " chunks for the query.", none, none⟩
  let lines := retrievalLines limit 1 retrieved_docs
  let retrievalStep : Event := .step ⟨"retrieval", "Retriever",
    if lines.isEmpty then "No chunks retrieved." else String.intercalate "\n" lines,
    none, none⟩
  let evidence := evidenceLoop env query 1 retrieved_docs
  let ambiguity_guidance := runAgent env query
    (ambiguityPrompt query (String.intercalate "\n" evidence.answers))
  let ambiguityStep : Event := .step ⟨"ambiguity", "Ambiguity Solver",
    ambiguity_guidance, some 0, none⟩
  let debate := debateRounds env query retrieved_docs 1 rounds
    evidence.answers ambiguity_guidance
  let final_answer := runAgent env query
    (summarizerPrompt query (String.intercalate "\n" debate.answers))
  let synthesisStep : Event := .step ⟨"synthesis", "Synthesizer",
    final_answer, some rounds, none⟩
  let stats : Stats := ⟨cleaned_docs.length, all_splits.length,
    retrieved_docs.length, model_name, rounds, env.embeddingSeconds⟩
  ⟨[setupStep, indexingStep, retrievedCountStep, retrievalStep]
      ++ evidence.events ++ [ambiguityStep] ++ debate.events
      ++ [synthesisStep, Event.done final_answer stats query],
    evidence.calls
      ++ [⟨query, ambiguityPrompt query (String.intercalate "\n" evidence.answers)⟩]
      ++ debate.calls
      ++ [⟨query, summarizerPrompt query (String.intercalate "\n" debate.answers)⟩]⟩

/-- `stream_debate`: credential check first (`RuntimeError` when
`OPENAI_API_KEY` is unset), then document validation (`ValueError` when no
non-empty document remains), then the generator body.  On an error no
event is yielded and no agent call is made. -/
def stream_debate (env : Env) (documents : List String) (query model_name : String)
    (top_k rounds : Nat) : Except PipelineError EngineRun :=
  if !env.apiKeyPresent then
    Except.error (PipelineError.configurationError
      "OPENAI_API_KEY is not set in the environment.")
  else if (cleanedDocs documents).isEmpty then
    Except.error (PipelineError.inputError
      "At least one non-empty document is required.")
  else
    Except.ok (streamBody env documents query model_name top_k rounds 200)

/-- Model of `stats = {}` before any "done" event is processed in
`run_debate` (never observable because the stream always ends with
"done"). -/
def emptyStats : Stats := ⟨0, 0, 0, "", 0, 0⟩

/-- The batched `DebateResult` dictionary returned by `run_debate`. -/
structure DebateResult where
  query : String
  steps : List DebateStep
  final_answer : String
  stats : Stats
deriving DecidableEq, Repr

/-- `run_debate`: drain the stream, buffering "step" payloads and
recording `final_answer` / `stats` from the "done" event; validation
errors propagate unchanged. -/
def run_debate (env : Env) (documents : List String) (query model_name : String)
    (top_k rounds : Nat) : Except PipelineError DebateResult :=
  match stream_debate env documents query model_name top_k rounds with
  | .error e => .error e
  | .ok run =>
    let folded := run.events.foldl
      (fun acc ev =>
        match ev with
        | .step d => (acc.1 ++ [d], acc.2.1, acc.2.2)
        | .done fa st _ => (acc.1, fa, st))
      (([] : List DebateStep), "", emptyStats)
    .ok ⟨query, folded.1, folded.2.1, folded.2.2⟩

/-! ## Spec-side round state (for the data-freshness claim)

`answersAfter env q retr r` is the answer list held in
`intermediate_results` once round `r` has completed (`r = 0` is the
evidence round); `guidanceAfter` the ambiguity guidance computed from it.
These mirror §4.1 steps 5–7 of the spec and are proved to coincide with
the state threaded through `debateRounds`. -/

/-- The per-chunk answer set after round `r` (round 0 = evidence). -/
def answersAfter (env : Env) (query : String) (retrieved : List Chunk) : Nat → List String
  | 0 => retrieved.map (fun doc => runAgent env query (evidencePrompt query doc.page_content))
  | r + 1 =>
    let prev := answersAfter env query retrieved r
    let guidance := runAgent env query
      (ambiguityPrompt query (String.intercalate "\n" prev))
    retrieved.map (fun doc => runAgent env query
      (debatePrompt query doc.page_content (String.intercalate "\n" prev) guidance))

/-- The ambiguity guidance computed from the round-`r` answer set. -/
def guidanceAfter (env : Env) (query : String) (retrieved : List Chunk) (r : Nat) : String :=
  runAgent env query
    (ambiguityPrompt query (String.intercalate "\n" (answersAfter env query retrieved r)))

/-- The completion-service calls round `r ≥ 1` must make according to the
spec: one debate prompt per retrieved chunk carrying round `r - 1`'s full
answer set and guidance, then one ambiguity call on the new (round `r`)
answer set. -/
def roundCallsSpec (env : Env) (query : String) (retrieved : List Chunk) (r : Nat) :
    List AgentCall :=
  retrieved.map (fun doc =>
    ⟨query, debatePrompt query doc.page_content
      (String.intercalate "\n" (answersAfter env query retrieved (r - 1)))
      (guidanceAfter env query retrieved (r - 1))⟩)
  ++ [⟨query, ambiguityPrompt query
        (String.intercalate "\n" (answersAfter env query retrieved r))⟩]

/-! ## Event bridge and WebSocket handler (`app.py`) -/

/-- Wire-level messages the WebSocket handler deals in: engine events,
the synthesized error event, the readiness acknowledgment, and the
internal `{"event": "_done"}` close sentinel. -/
inductive WireEvent where
  | step (data : DebateStep)
  | done (final_answer : String) (stats : Stats) (query : String)
  | error (detail : String)
  | ready
  | sentinel
deriving DecidableEq, Repr

/-- Engine events pass to the wire unchanged. -/
def toWire : Event → WireEvent
  | .step d => .step d
  | .done fa st q => .done fa st q

/-- The queue contents produced by `run_pipeline` in `debate_websocket`:
every engine event in production order; if the engine raised, a
synthesized `{"event": "error", "detail": f"Pipeline error: {exc}"}`;
finally (always) the `{"event": "_done"}` sentinel. -/
def bridgeQueue (produced : List Event) (raised : Option String) : List WireEvent :=
  produced.map toWire
    ++ (match raised with
        | some msg => [WireEvent.error ("Pipeline error: " ++ msg)]
        | none => [])
    ++ [WireEvent.sentinel]

/-- The consumer loop of `debate_websocket`: forward queued events until
the `_done` sentinel, which is consumed and never sent. -/
def deliverUntilSentinel : List WireEvent → List WireEvent
  | [] => []
  | WireEvent.sentinel :: _ => []
  | e :: rest => e :: deliverUntilSentinel rest

/-- `str(exc)` for the two validation exceptions. -/
def errorMessage : PipelineError → String
  | .configurationError msg => msg
  | .inputError msg => msg

/-- The queue `run_pipeline` leaves behind for a given engine outcome:
on success the events are relayed and no exception is caught; on a
validation failure nothing was yielded and the exception is converted to
the synthesized error event. -/
def pipelineQueue (res : Except PipelineError EngineRun) : List WireEvent :=
  match res with
  | .ok run => bridgeQueue run.events none
  | .error e => bridgeQueue [] (some (errorMessage e))

/-- Every message `debate_websocket` sends after receiving a valid
request payload, in order: the readiness acknowledgment — sent twice in
the source — followed by the relayed queue contents. -/
def debateWebsocketSent (env : Env) (documents : List String) (query model_name : String)
    (top_k rounds : Nat) : List WireEvent :=
  [WireEvent.ready, WireEvent.ready]
    ++ deliverUntilSentinel
        (pipelineQueue (stream_debate env documents query model_name top_k rounds))

/-! ## Statement helpers -/

/-- The `data` payloads of the "step" events, in order. -/
def stepsOf (events : List Event) : List DebateStep :=
  events.filterMap (fun ev =>
    match ev with
    | .step d => some d
    | .done _ _ _ => none)

/-- Is this event the retrieval-summary step? -/
def isRetrievalStep : Event → Bool
  | .step d => d.stage == "retrieval"
  | .done _ _ _ => false

/-- Is this wire message a terminal event ("done" or "error")? -/
def isTerminalWire : WireEvent → Bool
  | .done _ _ _ => true
  | .error _ => true
  | _ => false

/-- Is this wire message the readiness acknowledgment? -/
def isReady : WireEvent → Bool
  | .ready => true
  | _ => false

/-- Did `stream_debate` fail with the `ValueError` (spec `InputError`)? -/
def isInputError (res : Except PipelineError EngineRun) : Bool :=
  match res with
  | .error (.inputError _) => true
  | _ => false

/-- Events of a failed run (none). -/
def eventsOf (res : Except PipelineError EngineRun) : List Event :=
  match res with
  | .ok run => run.events
  | .error _ => []

/-- Agent calls of a failed run (none). -/
def callsOf (res : Except PipelineError EngineRun) : List AgentCall :=
  match res with
  | .ok run => run.calls
  | .error _ => []

/-! ## Concrete stub environment for witnesses -/

/-- A deterministic stub environment: credential present, chunker keeps
each cleaned document whole (doc ids by position), retriever returns the
first `k` chunks, completion service answers a fixed string. -/
def envW : Env where
  apiKeyPresent := true
  split := fun docs => (List.range docs.length).zipWith
    (fun i d => ⟨d, some (i + 1)⟩) docs
  search := fun chunks _ k => chunks.take k
  agentOutput := fun _ _ => "stub answer"
  embeddingSeconds := 0

/-- The stub environment with the credential absent. -/
def envNoKey : Env := { envW with apiKeyPresent := false }

/-- The stub environment whose retriever returns nothing. -/
def envEmptySearch : Env := { envW with search := fun _ _ _ => [] }

/-- A 250-character word, used to exercise the truncation branch. -/
def tLong : String := String.mk (List.replicate 250 'a')

/-! ## Derived abbreviations (projections of the run, for lemma
statements) -/

/-- The evidence-round answers (`intermediate_results` after round 0). -/
def evAnswers (env : Env) (documents : List String) (query : String)
    (top_k : Nat) : List String :=
  (evidenceLoop env query 1 (retrievedDocs env documents query top_k)).answers

/-- The round-0 ambiguity guidance of a run. -/
def guidance0 (env : Env) (documents : List String) (query : String)
    (top_k : Nat) : String :=
  runAgent env query (ambiguityPrompt query
    (String.intercalate "\n" (evAnswers env documents query top_k)))

/-- The debate-round block of a run. -/
def debateBlock (env : Env) (documents : List String) (query : String)
    (top_k rounds : Nat) : RoundsResult :=
  debateRounds env query (retrievedDocs env documents query top_k) 1 rounds
    (evAnswers env documents query top_k) (guidance0 env documents query top_k)

/-- The synthesized final answer of a run. -/
def finalAnswerOf (env : Env) (documents : List String) (query : String)
    (top_k rounds : Nat) : String :=
  runAgent env query (summarizerPrompt query
    (String.intercalate "\n" (debateBlock env documents query top_k rounds).answers))

/-- The stats attached to the terminal event of a run. -/
def statsOf (env : Env) (documents : List String) (query model_name : String)
    (top_k rounds : Nat) : Stats :=
  ⟨(cleanedDocs documents).length, (allSplits env documents).length,
    (retrievedDocs env documents query top_k).length, model_name, rounds,
    env.embeddingSeconds⟩

/-- The retrieval-summary message of a run at truncation limit `limit`. -/
def retrievalMessage (env : Env) (documents : List String) (query : String)
    (top_k limit : Nat) : String :=
  if (retrievalLines limit 1 (retrievedDocs env documents query top_k)).isEmpty then
    "No chunks retrieved."
  else
    String.intercalate "\n" (retrievalLines limit 1 (retrievedDocs env documents query top_k))

/-! ## Helper lemmas -/

/-- Dropping a prefix cannot lengthen a list. -/
theorem length_dropWhile_le {α : Type} (p : α → Bool) (l : List α) :
    (l.dropWhile p).length ≤ l.length := by
  induction l with
  | nil => simp
  | cons a t ih =>
    by_cases h : p a
    · simp only [List.dropWhile, h]
      exact le_trans ih (by simp)
    · simp [List.dropWhile, h]

/-- The character count of a string built from an explicit character
list. -/
theorem length_mk (l : List Char) : (String.mk l).length = l.length := rfl

/-- `rstrip` cannot lengthen a string. -/
theorem pyRstrip_length_le (s : String) : (pyRstrip s).length ≤ s.length := by
  unfold pyRstrip
  rw [length_mk, List.length_reverse]
  have h2 := length_dropWhile_le isPySpace s.toList.reverse
  have h3 : s.toList.reverse.length = s.length := by rw [List.length_reverse]; rfl
  omega

/-- C5. Truncation law of `_compact` at the source's limit 200: a
whitespace-collapsed text longer than 200 characters is cut to at most
200 characters ending in the ellipsis marker `"..."`; a collapsed text of
at most 200 characters is returned verbatim. -/
theorem c5_compact_truncation_law (text : String) :
    (200 < (String.intercalate " " (pySplit text)).length →
      (_compact text 200).length ≤ 200 ∧
        ∃ l, (_compact text 200).data = l ++ ['.', '.', '.']) ∧
    ((String.intercalate " " (pySplit text)).length ≤ 200 →
      _compact text 200 = String.intercalate " " (pySplit text)) := by
  constructor
  · intro hlong
    have hneg : ¬ (String.intercalate " " (pySplit text)).length ≤ 200 := by omega
    constructor
    · show (let cleaned := String.intercalate " " (pySplit text)
        if cleaned.length ≤ 200 then cleaned
        else pyRstrip (String.mk (cleaned.toList.take (200 - 3))) ++ "...").length ≤ 200
      simp only [if_neg hneg]
      rw [String.length_append]
      have h1 := pyRstrip_length_le
        (String.mk (((String.intercalate " " (pySplit text)).toList.take (200 - 3))))
      have h2 := length_mk (((String.intercalate " " (pySplit text)).toList.take (200 - 3)))
      have h3 : (((String.intercalate " " (pySplit text)).toList.take (200 - 3))).length ≤ 197 := by
        simp [List.length_take]
      have h4 : ("..." : String).length = 3 := rfl
      omega
    · refine ⟨(pyRstrip (String.mk
        (((String.intercalate " " (pySplit text)).toList.take (200 - 3))))).data, ?_⟩
      show (let cleaned := String.intercalate " " (pySplit text)
        if cleaned.length ≤ 200 then cleaned
        else pyRstrip (String.mk (cleaned.toList.take (200 - 3))) ++ "...").data = _
      simp only [if_neg hneg]
      rw [String.data_append]
  · intro hshort
    show (let cleaned := String.intercalate " " (pySplit text)
      if cleaned.length ≤ 200 then cleaned
      else pyRstrip (String.mk (cleaned.toList.take (200 - 3))) ++ "...") =
        String.intercalate " " (pySplit text)
    simp only [if_pos hshort]

set_option maxRecDepth 4000 in
/-- Witness for C5: both branches exercised on concrete texts. -/
theorem c5_compact_truncation_law_witness :
    (200 < (String.intercalate " " (pySplit tLong)).length ∧
      (_compact tLong 200).length ≤ 200 ∧
        ∃ l, (_compact tLong 200).data = l ++ ['.', '.', '.']) ∧
    ((String.intercalate " " (pySplit "hi there")).length ≤ 200 ∧
      _compact "hi there" 200 = String.intercalate " " (pySplit "hi there")) :=
  ⟨⟨by decide, (c5_compact_truncation_law tLong).1 (by decide)⟩,
    ⟨by decide, (c5_compact_truncation_law "hi there").2 (by decide)⟩⟩

/-! ## C4 — validation failures -/

/-- C4 counterexample: with the credential absent and only whitespace
documents, zero non-empty documents remain after stripping, yet the
engine fails with the credential error (`RuntimeError`), not the
`InputError` the claim requires: the credential check runs first. -/
theorem c4_counterexample :
    cleanedDocs [" "] = [] ∧
    stream_debate envNoKey [" "] "q" "m" 6 2 =
      Except.error (PipelineError.configurationError
        "OPENAI_API_KEY is not set in the environment.") ∧
    isInputError (stream_debate envNoKey [" "] "q" "m" 6 2) = false :=
  ⟨rfl, rfl, rfl⟩

/-- C4 (amended): the credential check precedes document validation.
If the credential is absent the engine fails with the configuration
error; if the credential is present and zero non-empty documents remain
after stripping it fails with the input error; in any failure no event is
produced and no model call is attempted. -/
theorem c4_validation_failures (env : Env) (documents : List String)
    (query model_name : String) (top_k rounds : Nat) :
    (env.apiKeyPresent = false →
      stream_debate env documents query model_name top_k rounds =
        Except.error (PipelineError.configurationError
          "OPENAI_API_KEY is not set in the environment.")) ∧
    (env.apiKeyPresent = true → cleanedDocs documents = [] →
      stream_debate env documents query model_name top_k rounds =
        Except.error (PipelineError.inputError
          "At least one non-empty document is required.")) ∧
    (∀ e, stream_debate env documents query model_name top_k rounds = Except.error e →
      eventsOf (stream_debate env documents query model_name top_k rounds) = [] ∧
      callsOf (stream_debate env documents query model_name top_k rounds) = []) := by
  refine ⟨?_, ?_, ?_⟩
  · intro h
    simp [stream_debate, h]
  · intro h1 h2
    simp [stream_debate, h1, h2]
  · intro e he
    simp [eventsOf, callsOf, he]

/-- Witness for C4: both failure branches exercised concretely. -/
theorem c4_validation_failures_witness :
    (envNoKey.apiKeyPresent = false ∧
      stream_debate envNoKey ["doc"] "q" "m" 6 2 =
        Except.error (PipelineError.configurationError
          "OPENAI_API_KEY is not set in the environment.")) ∧
    (envW.apiKeyPresent = true ∧ cleanedDocs [""] = [] ∧
      stream_debate envW [""] "q" "m" 6 2 =
        Except.error (PipelineError.inputError
          "At least one non-empty document is required.")) ∧
    (eventsOf (stream_debate envNoKey ["doc"] "q" "m" 6 2) = [] ∧
      callsOf (stream_debate envNoKey ["doc"] "q" "m" 6 2) = []) :=
  ⟨⟨rfl, (c4_validation_failures envNoKey ["doc"] "q" "m" 6 2).1 rfl⟩,
    ⟨rfl, rfl, (c4_validation_failures envW [""] "q" "m" 6 2).2.1 rfl rfl⟩,
    (c4_validation_failures envNoKey ["doc"] "q" "m" 6 2).2.2 _
      ((c4_validation_failures envNoKey ["doc"] "q" "m" 6 2).1 rfl)⟩

/-! ## C6 — idempotence of validation -/

/-- Pre-filtering away empty-after-strip documents does not change
`cleaned_docs`. -/
theorem cleanedDocs_filter (documents : List String) :
    cleanedDocs (documents.filter (fun d => !(pyStrip d == ""))) = cleanedDocs documents := by
  unfold cleanedDocs
  rw [List.filter_filter]
  simp

/-- The engine depends on its documents argument only through
`cleaned_docs`. -/
theorem stream_debate_congr (env : Env) {docs1 docs2 : List String}
    (query model_name : String) (top_k rounds : Nat)
    (h : cleanedDocs docs1 = cleanedDocs docs2) :
    stream_debate env docs1 query model_name top_k rounds =
      stream_debate env docs2 query model_name top_k rounds := by
  simp only [stream_debate, streamBody, allSplits, retrievedDocs, h]

/-- C6. Submitting a mix of empty/whitespace-only and non-empty
documents behaves exactly like submitting only the non-empty ones, and
the `InputError` arises only when every submitted document strips to
empty. -/
theorem c6_validation_idempotence (env : Env) (documents : List String)
    (query model_name : String) (top_k rounds : Nat) :
    stream_debate env (documents.filter (fun d => !(pyStrip d == "")))
        query model_name top_k rounds =
      stream_debate env documents query model_name top_k rounds ∧
    (isInputError (stream_debate env documents query model_name top_k rounds) = true →
      ∀ d ∈ documents, pyStrip d = "") := by
  constructor
  · exact stream_debate_congr env query model_name top_k rounds (cleanedDocs_filter documents)
  · intro h d hd
    unfold isInputError stream_debate at h
    by_cases h1 : env.apiKeyPresent
    · by_cases h2 : (cleanedDocs documents).isEmpty
      · have hnil : cleanedDocs documents = [] := by
          rwa [List.isEmpty_iff] at h2
        unfold cleanedDocs at hnil
        have hfil : documents.filter (fun d => !(pyStrip d == "")) = [] := by
          rcases List.map_eq_nil_iff.mp hnil with hf
          exact hf
        have := List.filter_eq_nil_iff.mp hfil d hd
        simpa using this
      · simp [h1, h2] at h
    · simp [h1] at h

/-- Witness for C6: an all-empty submission triggers the `InputError`
and every entry indeed strips to empty. -/
theorem c6_validation_idempotence_witness :
    (stream_debate envW ((["", " ", "a"] : List String).filter (fun d => !(pyStrip d == "")))
        "q" "m" 6 2 =
      stream_debate envW ["", " ", "a"] "q" "m" 6 2) ∧
    (isInputError (stream_debate envW ["", " "] "q" "m" 6 2) = true ∧
      ∀ d ∈ (["", " "] : List String), pyStrip d = "") :=
  ⟨(c6_validation_idempotence envW ["", " ", "a"] "q" "m" 6 2).1,
    rfl, (c6_validation_idempotence envW ["", " "] "q" "m" 6 2).2 rfl⟩

/-! ## C8 — truncation is presentation-only -/

/-- Append of two trailing elements determines the last element. -/
theorem getLast?_append_two {α : Type} (l : List α) (a b : α) :
    (l ++ [a, b]).getLast? = some b := by
  have h : l ++ [a, b] = (l ++ [a]) ++ [b] := by simp
  rw [h, List.getLast?_concat]

/-- C8. The `_compact` truncation limit influences nothing but the
retrieval-summary step: for any two limits the completion-service call
traces (hence every prompt, built from the full chunk text), all
non-retrieval steps (per-chunk answers, guidance, synthesis), and the
terminal "done" event (final answer, stats) coincide. -/
theorem c8_truncation_noninterference (env : Env) (documents : List String)
    (query model_name : String) (top_k rounds : Nat) (L1 L2 : Nat) :
    (streamBody env documents query model_name top_k rounds L1).calls =
      (streamBody env documents query model_name top_k rounds L2).calls ∧
    (streamBody env documents query model_name top_k rounds L1).events.filter
        (fun e => !(isRetrievalStep e)) =
      (streamBody env documents query model_name top_k rounds L2).events.filter
        (fun e => !(isRetrievalStep e)) ∧
    (streamBody env documents query model_name top_k rounds L1).events.getLast? =
      (streamBody env documents query model_name top_k rounds L2).events.getLast? := by
  refine ⟨rfl, ?_, ?_⟩
  · simp only [streamBody]
    simp +decide [List.filter_append, isRetrievalStep]
  · simp only [streamBody]
    rw [getLast?_append_two, getLast?_append_two]

/-! ## C9 — readiness acknowledgment -/

/-- C9 evidence: on a valid request the handler sends the readiness
acknowledgment twice before the first pipeline event (the spec's §9 notes
this duplication is accidental and a single acknowledgment is intended). -/
theorem c9_ready_sent_twice :
    (debateWebsocketSent envW ["a"] "q" "m" 1 1).take 2 =
      [WireEvent.ready, WireEvent.ready] ∧
    (debateWebsocketSent envW ["a"] "q" "m" 1 1).countP isReady = 2 := by
  decide

/-! ## Shape lemmas for the engine loops -/

/-- `stepsOf` distributes over append. -/
theorem stepsOf_append (a b : List Event) : stepsOf (a ++ b) = stepsOf a ++ stepsOf b :=
  List.filterMap_append a b _

/-- `stepsOf` undoes `map Event.step`. -/
theorem stepsOf_map_step (ds : List DebateStep) : stepsOf (ds.map Event.step) = ds := by
  induction ds with
  | nil => rfl
  | cons d rest ih => simp [stepsOf, List.filterMap] at ih ⊢; exact ih

/-- A list all of whose elements are "step" events, each with property
`P`, is a mapped list of steps with property `P`. -/
theorem all_step_decomp (P : DebateStep → Prop) :
    ∀ l : List Event, (∀ e ∈ l, ∃ d, e = Event.step d ∧ P d) →
      ∃ ds : List DebateStep, l = ds.map Event.step ∧ ∀ d ∈ ds, P d := by
  intro l
  induction l with
  | nil => exact fun _ => ⟨[], rfl, by simp⟩
  | cons e rest ih =>
    intro h
    obtain ⟨d, hd, hP⟩ := h e (by simp)
    obtain ⟨ds, hds, hdsP⟩ := ih (fun e' he' => h e' (by simp [he']))
    refine ⟨d :: ds, by simp [hd, hds], ?_⟩
    intro d' hd'
    rcases List.mem_cons.mp hd' with h' | h'
    · exact h' ▸ hP
    · exact hdsP d' h'

/-- `intermediate_results` accumulated by the evidence loop. -/
theorem evidenceLoop_answers (env : Env) (query : String) :
    ∀ (chunks : List Chunk) (idx : Nat),
      (evidenceLoop env query idx chunks).answers =
        chunks.map (fun doc => runAgent env query (evidencePrompt query doc.page_content)) := by
  intro chunks
  induction chunks with
  | nil => intro idx; rfl
  | cons doc rest ih => intro idx; simp [evidenceLoop, ih]

/-- Agent calls made by the evidence loop. -/
theorem evidenceLoop_calls (env : Env) (query : String) :
    ∀ (chunks : List Chunk) (idx : Nat),
      (evidenceLoop env query idx chunks).calls =
        chunks.map (fun doc => (⟨query, evidencePrompt query doc.page_content⟩ : AgentCall)) := by
  intro chunks
  induction chunks with
  | nil => intro idx; rfl
  | cons doc rest ih => intro idx; simp [evidenceLoop, ih]

/-- Events yielded by the evidence loop: one "evidence" step per chunk,
all tagged `round = 0`. -/
theorem evidenceLoop_events_shape (env : Env) (query : String) :
    ∀ (chunks : List Chunk) (idx : Nat),
      ∃ ds : List DebateStep,
        (evidenceLoop env query idx chunks).events = ds.map Event.step ∧
        ds.length = chunks.length ∧
        ∀ d ∈ ds, d.stage = "evidence" ∧ d.round = some 0 := by
  intro chunks
  induction chunks with
  | nil => exact fun idx => ⟨[], rfl, rfl, by simp⟩
  | cons doc rest ih =>
    intro idx
    obtain ⟨ds, he, hl, hp⟩ := ih (idx + 1)
    refine ⟨⟨"evidence", "Doc Agent " ++ toString idx,
        runAgent env query (evidencePrompt query doc.page_content), some 0, doc.doc_id⟩ :: ds,
      by simp [evidenceLoop, he], by simp [hl], ?_⟩
    intro d hd
    rcases List.mem_cons.mp hd with h' | h'
    · exact h' ▸ ⟨rfl, rfl⟩
    · exact hp d h'

/-- `intermediate_results` accumulated by one debate round's chunk pass. -/
theorem debateChunkLoop_answers (env : Env) (query : String) (history : List String)
    (guidance : String) (round_idx : Nat) :
    ∀ (chunks : List Chunk) (idx : Nat),
      (debateChunkLoop env query history guidance round_idx idx chunks).answers =
        chunks.map (fun doc => runAgent env query
          (debatePrompt query doc.page_content
            (String.intercalate "\n" history) guidance)) := by
  intro chunks
  induction chunks with
  | nil => intro idx; rfl
  | cons doc rest ih => intro idx; simp [debateChunkLoop, ih]

/-- Agent calls made by one debate round's chunk pass. -/
theorem debateChunkLoop_calls (env : Env) (query : String) (history : List String)
    (guidance : String) (round_idx : Nat) :
    ∀ (chunks : List Chunk) (idx : Nat),
      (debateChunkLoop env query history guidance round_idx idx chunks).calls =
        chunks.map (fun doc => (⟨query, debatePrompt query doc.page_content
          (String.intercalate "\n" history) guidance⟩ : AgentCall)) := by
  intro chunks
  induction chunks with
  | nil => intro idx; rfl
  | cons doc rest ih => intro idx; simp [debateChunkLoop, ih]

/-- Events yielded by one debate round's chunk pass: one "debate" step
per chunk, all tagged with that round index. -/
theorem debateChunkLoop_events_shape (env : Env) (query : String) (history : List String)
    (guidance : String) (round_idx : Nat) :
    ∀ (chunks : List Chunk) (idx : Nat),
      ∃ ds : List DebateStep,
        (debateChunkLoop env query history guidance round_idx idx chunks).events =
          ds.map Event.step ∧
        ds.length = chunks.length ∧
        ∀ d ∈ ds, d.stage = "debate" ∧ d.round = some round_idx := by
  intro chunks
  induction chunks with
  | nil => exact fun idx => ⟨[], rfl, rfl, by simp⟩
  | cons doc rest ih =>
    intro idx
    obtain ⟨ds, he, hl, hp⟩ := ih (idx + 1)
    refine ⟨⟨"debate", "Debater " ++ toString idx,
        runAgent env query (debatePrompt query doc.page_content
          (String.intercalate "\n" history) guidance), some round_idx, doc.doc_id⟩ :: ds,
      by simp [debateChunkLoop, he], by simp [hl], ?_⟩
    intro d hd
    rcases List.mem_cons.mp hd with h' | h'
    · exact h' ▸ ⟨rfl, rfl⟩
    · exact hp d h'

/-- Total number of events yielded by the debate rounds:
`remaining × (chunks + 1)`. -/
theorem debateRounds_events_length (env : Env) (query : String) (retrieved : List Chunk) :
    ∀ (remaining round_idx : Nat) (answers : List String) (guidance : String),
      (debateRounds env query retrieved round_idx remaining answers guidance).events.length =
        remaining * (retrieved.length + 1) := by
  intro remaining
  induction remaining with
  | zero => intro round_idx answers guidance; simp [debateRounds]
  | succ n ih =>
    intro round_idx answers guidance
    obtain ⟨ds, he, hl, _⟩ :=
      debateChunkLoop_events_shape env query answers guidance round_idx retrieved 1
    simp only [debateRounds, List.length_append, he, List.length_map,
      List.length_cons, List.length_nil, ih, hl]
    ring

/-- Every event of the debate rounds is a "debate" or "ambiguity" step
tagged with a round index in `[round_idx, round_idx + remaining)`. -/
theorem debateRounds_events_tags (env : Env) (query : String) (retrieved : List Chunk) :
    ∀ (remaining round_idx : Nat) (answers : List String) (guidance : String),
      ∀ e ∈ (debateRounds env query retrieved round_idx remaining answers guidance).events,
        ∃ d, e = Event.step d ∧ (d.stage = "debate" ∨ d.stage = "ambiguity") ∧
          ∃ r, d.round = some r ∧ round_idx ≤ r ∧ r < round_idx + remaining := by
  intro remaining
  induction remaining with
  | zero => intro round_idx answers guidance e he; simp [debateRounds] at he
  | succ n ih =>
    intro round_idx answers guidance e he
    obtain ⟨ds, hev, _, hp⟩ :=
      debateChunkLoop_events_shape env query answers guidance round_idx retrieved 1
    simp only [debateRounds, hev, List.mem_append] at he
    rcases he with (he | he) | he
    · obtain ⟨d, hd, hde⟩ := List.mem_map.mp he
      obtain ⟨hs, hr⟩ := hp d hd
      exact ⟨d, hde.symm, Or.inl hs, round_idx, hr, le_refl _, by omega⟩
    · simp at he
      exact ⟨_, he, Or.inr rfl, round_idx, rfl, le_refl _, by omega⟩
    · obtain ⟨d, hde, hstage, r, hr, hr1, hr2⟩ := ih (round_idx + 1) _ _ e he
      exact ⟨d, hde, hstage, r, hr, by omega, by omega⟩

/-- Dissection of the debate-round events around one round `r` inside
the window: the round-`r` chunk steps followed immediately by the
round-`r` ambiguity step, surrounded by steps of other rounds. -/
theorem debateRounds_decomp (env : Env) (query : String) (retrieved : List Chunk) :
    ∀ (remaining round_idx : Nat) (answers : List String) (guidance : String) (r : Nat),
      round_idx ≤ r → r < round_idx + remaining →
      ∃ (A ds B : List DebateStep) (guid : String),
        (debateRounds env query retrieved round_idx remaining answers guidance).events =
          A.map Event.step ++ ds.map Event.step
            ++ [Event.step ⟨"ambiguity", "Ambiguity Solver", guid, some r, none⟩]
            ++ B.map Event.step ∧
        ds.length = retrieved.length ∧
        (∀ d ∈ ds, d.stage = "debate" ∧ d.round = some r) ∧
        (∀ d ∈ A, ∃ r', d.round = some r' ∧ r' ≠ r) ∧
        (∀ d ∈ B, ∃ r', d.round = some r' ∧ r' ≠ r) := by
  intro remaining
  induction remaining with
  | zero => intro round_idx answers guidance r h1 h2; omega
  | succ n ih =>
    intro round_idx answers guidance r h1 h2
    obtain ⟨ds, hev, hl, hp⟩ :=
      debateChunkLoop_events_shape env query answers guidance round_idx retrieved 1
    by_cases hr : r = round_idx
    · subst hr
      -- the sought round is the first one of the window
      have htags := debateRounds_events_tags env query retrieved n (r + 1)
        (debateChunkLoop env query answers guidance r 1 retrieved).answers
        (runAgent env query (ambiguityPrompt query (String.intercalate "\n"
          (debateChunkLoop env query answers guidance r 1 retrieved).answers)))
      obtain ⟨B, hB, hBP⟩ := all_step_decomp
        (fun d => ∃ r', d.round = some r' ∧ r' ≠ r) _
        (fun e he => by
          obtain ⟨d, hde, _, r', hr', hge, _⟩ := htags e he
          exact ⟨d, hde, r', hr', by omega⟩)
      refine ⟨[], ds,
        B,
        runAgent env query (ambiguityPrompt query (String.intercalate "\n"
          (debateChunkLoop env query answers guidance r 1 retrieved).answers)), ?_, hl, hp, by
          simp, hBP⟩
      simp only [debateRounds, hev, hB]
      simp
    · -- the sought round lies in the remaining window
      obtain ⟨A, ds', B, guid, hre, hl', hp', hA, hB⟩ := ih (round_idx + 1)
        (debateChunkLoop env query answers guidance round_idx 1 retrieved).answers
        (runAgent env query (ambiguityPrompt query (String.intercalate "\n"
          (debateChunkLoop env query answers guidance round_idx 1 retrieved).answers)))
        r (by omega) (by omega)
      refine ⟨ds ++ [⟨"ambiguity", "Ambiguity Solver",
          runAgent env query (ambiguityPrompt query (String.intercalate "\n"
            (debateChunkLoop env query answers guidance round_idx 1 retrieved).answers)),
          some round_idx, none⟩] ++ A, ds', B, guid, ?_, hl', hp', ?_, hB⟩
      · simp only [debateRounds, hev, hre]
        simp
      · intro d hd
        simp only [List.mem_append, List.mem_singleton] at hd
        rcases hd with (hd | hd) | hd
        · exact ⟨round_idx, (hp d hd).2, fun hc => hr hc.symm⟩
        · subst hd
          exact ⟨round_idx, rfl, fun hc => hr hc.symm⟩
        · exact hA d hd

/-- A successful `stream_debate` call is exactly the generator body with
the source's truncation limit. -/
theorem stream_debate_eq_ok {env : Env} {documents : List String}
    {query model_name : String} {top_k rounds : Nat} {run : EngineRun}
    (h : stream_debate env documents query model_name top_k rounds = Except.ok run) :
    run = streamBody env documents query model_name top_k rounds 200 ∧
    env.apiKeyPresent = true ∧ cleanedDocs documents ≠ [] := by
  by_cases h1 : env.apiKeyPresent
  · by_cases h2 : (cleanedDocs documents).isEmpty
    · simp [stream_debate, h1, h2] at h
    · simp only [stream_debate, h1, h2, Bool.not_true, Bool.false_eq_true,
        if_false, Bool.not_eq_true] at h
      have h2' : cleanedDocs documents ≠ [] := by
        intro hc
        rw [hc] at h2
        exact h2 rfl
      exact ⟨(Except.ok.injEq _ _).mp h |>.symm, h1, h2'⟩
  · simp [stream_debate, h1] at h

/-- Validation succeeds on a present credential and a non-empty cleaned
document list. -/
theorem stream_debate_ok_of {env : Env} {documents : List String}
    (query model_name : String) (top_k rounds : Nat)
    (hkey : env.apiKeyPresent = true) (hne : cleanedDocs documents ≠ []) :
    stream_debate env documents query model_name top_k rounds =
      Except.ok (streamBody env documents query model_name top_k rounds 200) := by
  have h2 : (cleanedDocs documents).isEmpty = false := by
    cases hcd : cleanedDocs documents with
    | nil => exact absurd hcd hne
    | cons a t => rfl
  simp [stream_debate, hkey, h2]

/-- A non-empty list of documents none of which strips to empty cleans
to a non-empty list. -/
theorem cleanedDocs_ne_nil {documents : List String}
    (hne : documents ≠ []) (hall : ∀ d ∈ documents, pyStrip d ≠ "") :
    cleanedDocs documents ≠ [] := by
  cases documents with
  | nil => exact absurd rfl hne
  | cons d rest =>
    unfold cleanedDocs
    intro hc
    rcases List.map_eq_nil_iff.mp hc with hf
    have := List.filter_eq_nil_iff.mp hf d (by simp)
    simp at this
    exact hall d (by simp) this

/-- The ordered step payloads of a run, dissected into the pipeline
stages. -/
theorem streamBody_stepsOf (env : Env) (documents : List String)
    (query model_name : String) (top_k rounds limit : Nat) :
    stepsOf (streamBody env documents query model_name top_k rounds limit).events =
      [⟨"setup", "System",
          "Received " ++ toString (cleanedDocs documents).length ++
            " documents. Split into " ++ toString (allSplits env documents).length ++
            " chunks.", none, none⟩,
        ⟨"indexing", "Indexer", "Embedding documents for retrieval...", none, none⟩,
        ⟨"setup", "System",
          "Retrieved " ++ toString (retrievedDocs env documents query top_k).length ++
            " chunks for the query.", none, none⟩,
        ⟨"retrieval", "Retriever", retrievalMessage env documents query top_k limit,
          none, none⟩]
      ++ stepsOf (evidenceLoop env query 1 (retrievedDocs env documents query top_k)).events
      ++ [⟨"ambiguity", "Ambiguity Solver", guidance0 env documents query top_k,
            some 0, none⟩]
      ++ stepsOf (debateBlock env documents query top_k rounds).events
      ++ [⟨"synthesis", "Synthesizer", finalAnswerOf env documents query top_k rounds,
            some rounds, none⟩] := by
  simp only [streamBody, retrievalMessage, guidance0, debateBlock, finalAnswerOf, evAnswers]
  simp [stepsOf_append, stepsOf]

/-- Every event of a run is a step except the single trailing "done". -/
theorem streamBody_events_decomp (env : Env) (documents : List String)
    (query model_name : String) (top_k rounds limit : Nat) :
    ∃ body : List DebateStep,
      (streamBody env documents query model_name top_k rounds limit).events =
        body.map Event.step ++
          [Event.done (finalAnswerOf env documents query top_k rounds)
            (statsOf env documents query model_name top_k rounds) query] := by
  obtain ⟨eds, hev, _, _⟩ :=
    evidenceLoop_events_shape env query (retrievedDocs env documents query top_k) 1
  obtain ⟨rds, hrd, _⟩ := all_step_decomp (fun _ => True)
    (debateBlock env documents query top_k rounds).events
    (fun e he => by
      obtain ⟨d, hd, _⟩ := debateRounds_events_tags env query
        (retrievedDocs env documents query top_k) rounds 1
        (evAnswers env documents query top_k) (guidance0 env documents query top_k) e he
      exact ⟨d, hd, trivial⟩)
  refine ⟨⟨"setup", "System",
      "Received " ++ toString (cleanedDocs documents).length ++
        " documents. Split into " ++ toString (allSplits env documents).length ++
        " chunks.", none, none⟩ ::
    ⟨"indexing", "Indexer", "Embedding documents for retrieval...", none, none⟩ ::
    ⟨"setup", "System",
      "Retrieved " ++ toString (retrievedDocs env documents query top_k).length ++
        " chunks for the query.", none, none⟩ ::
    ⟨"retrieval", "Retriever", retrievalMessage env documents query top_k limit,
      none, none⟩ ::
    (eds ++ (⟨"ambiguity", "Ambiguity Solver", guidance0 env documents query top_k,
        some 0, none⟩ ::
      (rds ++ [⟨"synthesis", "Synthesizer",
        finalAnswerOf env documents query top_k rounds, some rounds, none⟩]))), ?_⟩
  have hrd' : (debateBlock env documents query top_k rounds).events = rds.map Event.step := hrd
  simp only [streamBody, retrievalMessage, guidance0, debateBlock, finalAnswerOf,
    evAnswers, statsOf] at hev hrd' ⊢
  rw [hev, hrd']
  simp

/-! ## C1 — step-count invariant -/

/-- C1. For any call with a non-empty set of non-empty documents and
`rounds ∈ {1,2,3,4}`, with `R` the number of retrieved chunks: the run
contains exactly `R` "evidence" steps, all in round 0; each debate round
`r` contributes exactly `R` "debate" steps followed by exactly one
"ambiguity" step (the round-`r` steps, in order, are those `R` debate
steps then the ambiguity step); and the total number of step events is
`2 + 1 + 1 + R + 1 + rounds*(R+1) + 1`. -/
theorem c1_step_count_invariant (env : Env) (documents : List String)
    (query model_name : String) (top_k rounds : Nat)
    (hkey : env.apiKeyPresent = true)
    (hne : documents ≠ []) (hall : ∀ d ∈ documents, pyStrip d ≠ "")
    (_hr1 : 1 ≤ rounds) (_hr4 : rounds ≤ 4) :
    ∃ run, stream_debate env documents query model_name top_k rounds = Except.ok run ∧
      ((stepsOf run.events).countP (fun d => d.stage == "evidence") =
          (retrievedDocs env documents query top_k).length ∧
        (stepsOf run.events).countP
            (fun d => d.stage == "evidence" && d.round == some 0) =
          (retrievedDocs env documents query top_k).length) ∧
      (∀ r, 1 ≤ r → r ≤ rounds →
        ∃ (ds : List DebateStep) (guid : String),
          (stepsOf run.events).filter
              (fun d => d.round == some r &&
                (d.stage == "debate" || d.stage == "ambiguity"))
            = ds ++ [⟨"ambiguity", "Ambiguity Solver", guid, some r, none⟩] ∧
          ds.length = (retrievedDocs env documents query top_k).length ∧
          ∀ d ∈ ds, d.stage = "debate") ∧
      (stepsOf run.events).length =
        2 + 1 + 1 + (retrievedDocs env documents query top_k).length + 1 +
          rounds * ((retrievedDocs env documents query top_k).length + 1) + 1 := by
  obtain ⟨eds, hev, hevl, hevp⟩ :=
    evidenceLoop_events_shape env query (retrievedDocs env documents query top_k) 1
  obtain ⟨rds, hrd, hrdp⟩ := all_step_decomp
    (fun d => (d.stage = "debate" ∨ d.stage = "ambiguity") ∧
      ∃ r', d.round = some r' ∧ 1 ≤ r')
    (debateBlock env documents query top_k rounds).events
    (fun e he => by
      obtain ⟨d, hd, hst, r', hr', hb1, hb2⟩ := debateRounds_events_tags env query
        (retrievedDocs env documents query top_k) rounds 1
        (evAnswers env documents query top_k) (guidance0 env documents query top_k) e he
      exact ⟨d, hd, hst, r', hr', hb1⟩)
  have hrdlen : rds.length =
      rounds * ((retrievedDocs env documents query top_k).length + 1) := by
    have hlen : (debateBlock env documents query top_k rounds).events.length =
        rounds * ((retrievedDocs env documents query top_k).length + 1) :=
      debateRounds_events_length env query (retrievedDocs env documents query top_k)
        rounds 1 (evAnswers env documents query top_k) (guidance0 env documents query top_k)
    rw [hrd] at hlen
    simpa using hlen
  refine ⟨streamBody env documents query model_name top_k rounds 200,
    stream_debate_ok_of query model_name top_k rounds hkey (cleanedDocs_ne_nil hne hall),
    ⟨?_, ?_⟩, ?_, ?_⟩
  · -- exactly R evidence steps
    rw [streamBody_stepsOf, hev, stepsOf_map_step, hrd, stepsOf_map_step]
    have h1 : eds.countP (fun d => d.stage == "evidence") = eds.length :=
      List.countP_eq_length.mpr (fun d hd => by
        rw [(hevp d hd).1]
        decide)
    have h2 : rds.countP (fun d => d.stage == "evidence") = 0 :=
      List.countP_eq_zero.mpr (fun d hd => by
        rcases (hrdp d hd).1 with h | h <;> rw [h] <;> decide)
    simp only [List.countP_append, List.countP_cons, List.countP_nil, h1, h2, hevl]
    simp +decide
  · -- all of them tagged round 0
    rw [streamBody_stepsOf, hev, stepsOf_map_step, hrd, stepsOf_map_step]
    have h1 : eds.countP (fun d => d.stage == "evidence" && d.round == some 0) =
        eds.length :=
      List.countP_eq_length.mpr (fun d hd => by
        rw [(hevp d hd).1, (hevp d hd).2]
        decide)
    have h2 : rds.countP (fun d => d.stage == "evidence" && d.round == some 0) = 0 :=
      List.countP_eq_zero.mpr (fun d hd => by
        rcases (hrdp d hd).1 with h | h <;> rw [h] <;> simp)
    simp only [List.countP_append, List.countP_cons, List.countP_nil, h1, h2, hevl]
    simp +decide
  · -- each debate round: R debate steps then the ambiguity step
    intro r hra hrb
    obtain ⟨A, ds, B, guid, heq, hdl, hdp, hA, hB⟩ :=
      debateRounds_decomp env query (retrievedDocs env documents query top_k)
        rounds 1 (evAnswers env documents query top_k)
        (guidance0 env documents query top_k) r hra (by omega)
    have heq' : (debateBlock env documents query top_k rounds).events =
        A.map Event.step ++ ds.map Event.step
          ++ [Event.step ⟨"ambiguity", "Ambiguity Solver", guid, some r, none⟩]
          ++ B.map Event.step := heq
    refine ⟨ds, guid, ?_, hdl, fun d hd => (hdp d hd).1⟩
    rw [streamBody_stepsOf, hev, stepsOf_map_step, heq']
    rw [stepsOf_append, stepsOf_append, stepsOf_append, stepsOf_map_step,
      stepsOf_map_step, stepsOf_map_step]
    have hr0 : ((some 0 : Option Nat) == some r) = false :=
      beq_eq_false_iff_ne.mpr (by simp; omega)
    have hds : ds.filter (fun d => d.round == some r &&
        (d.stage == "debate" || d.stage == "ambiguity")) = ds :=
      List.filter_eq_self.mpr (fun d hd => by
        rw [(hdp d hd).1, (hdp d hd).2]
        simp)
    have hAnil : A.filter (fun d => d.round == some r &&
        (d.stage == "debate" || d.stage == "ambiguity")) = [] :=
      List.filter_eq_nil_iff.mpr (fun d hd => by
        obtain ⟨r', hr', hne'⟩ := hA d hd
        rw [hr']
        have : ((some r' : Option Nat) == some r) = false :=
          beq_eq_false_iff_ne.mpr (by simpa using hne')
        simp [this])
    have hBnil : B.filter (fun d => d.round == some r &&
        (d.stage == "debate" || d.stage == "ambiguity")) = [] :=
      List.filter_eq_nil_iff.mpr (fun d hd => by
        obtain ⟨r', hr', hne'⟩ := hB d hd
        rw [hr']
        have : ((some r' : Option Nat) == some r) = false :=
          beq_eq_false_iff_ne.mpr (by simpa using hne')
        simp [this])
    have hevnil : eds.filter (fun d => d.round == some r &&
        (d.stage == "debate" || d.stage == "ambiguity")) = [] :=
      List.filter_eq_nil_iff.mpr (fun d hd => by
        rw [(hevp d hd).2, hr0]
        simp)
    simp only [List.filter_append, hds, hAnil, hBnil, hevnil,
      List.filter_cons, List.filter_nil]
    simp +decide [hr0, stepsOf]
  · -- total step count
    rw [streamBody_stepsOf, hev, stepsOf_map_step, hrd, stepsOf_map_step]
    simp only [List.length_append, List.length_cons, List.length_nil, hevl, hrdlen]
    try ring

/-- Witness for C1 at a concrete two-document run with two rounds. -/
theorem c1_step_count_invariant_witness :
    ∃ run, stream_debate envW ["alpha", "beta"] "q" "m" 6 2 = Except.ok run ∧
      ((stepsOf run.events).countP (fun d => d.stage == "evidence") =
          (retrievedDocs envW ["alpha", "beta"] "q" 6).length ∧
        (stepsOf run.events).countP
            (fun d => d.stage == "evidence" && d.round == some 0) =
          (retrievedDocs envW ["alpha", "beta"] "q" 6).length) ∧
      (∀ r, 1 ≤ r → r ≤ 2 →
        ∃ (ds : List DebateStep) (guid : String),
          (stepsOf run.events).filter
              (fun d => d.round == some r &&
                (d.stage == "debate" || d.stage == "ambiguity"))
            = ds ++ [⟨"ambiguity", "Ambiguity Solver", guid, some r, none⟩] ∧
          ds.length = (retrievedDocs envW ["alpha", "beta"] "q" 6).length ∧
          ∀ d ∈ ds, d.stage = "debate") ∧
      (stepsOf run.events).length =
        2 + 1 + 1 + (retrievedDocs envW ["alpha", "beta"] "q" 6).length + 1 +
          2 * ((retrievedDocs envW ["alpha", "beta"] "q" 6).length + 1) + 1 :=
  c1_step_count_invariant envW ["alpha", "beta"] "q" "m" 6 2 rfl
    (by decide) (by decide) (by decide) (by decide)

/-! ## C2 — streaming vs batched equivalence -/

/-- The drain fold of `run_debate` over step events accumulates exactly
their payloads. -/
theorem run_debate_fold_steps :
    ∀ (ds : List DebateStep) (acc : List DebateStep × String × Stats),
      (ds.map Event.step).foldl
        (fun acc ev =>
          match ev with
          | Event.step d => (acc.1 ++ [d], acc.2.1, acc.2.2)
          | Event.done fa st _ => (acc.1, fa, st)) acc
      = (acc.1 ++ ds, acc.2.1, acc.2.2) := by
  intro ds
  induction ds with
  | nil => intro acc; simp
  | cons d rest ih => intro acc; simp [ih]

/-- C2. Draining the stream and batching agree: the batched result's
`steps` are exactly the `data` payloads of the streamed "step" events in
order, and its `final_answer`, `stats` and `query` are the ones carried
by the terminal "done" event. -/
theorem c2_streaming_batched_equivalence (env : Env) (documents : List String)
    (query model_name : String) (top_k rounds : Nat) (run : EngineRun)
    (h : stream_debate env documents query model_name top_k rounds = Except.ok run) :
    ∃ (fa : String) (st : Stats), run.events.getLast? = some (Event.done fa st query) ∧
      run_debate env documents query model_name top_k rounds =
        Except.ok ⟨query, stepsOf run.events, fa, st⟩ := by
  obtain ⟨hrun, -, -⟩ := stream_debate_eq_ok h
  subst hrun
  obtain ⟨body, hbody⟩ :=
    streamBody_events_decomp env documents query model_name top_k rounds 200
  refine ⟨finalAnswerOf env documents query top_k rounds,
    statsOf env documents query model_name top_k rounds, ?_, ?_⟩
  · rw [hbody]
    exact List.getLast?_concat _
  · unfold run_debate
    rw [h]
    simp only [hbody, List.foldl_append, run_debate_fold_steps, stepsOf_append,
      stepsOf_map_step]
    simp [stepsOf]

/-- Witness for C2 at a concrete one-document run. -/
theorem c2_streaming_batched_equivalence_witness :
    ∃ (fa : String) (st : Stats),
      (streamBody envW ["a"] "q" "m" 1 1 200).events.getLast? =
        some (Event.done fa st "q") ∧
      run_debate envW ["a"] "q" "m" 1 1 =
        Except.ok ⟨"q", stepsOf (streamBody envW ["a"] "q" "m" 1 1 200).events, fa, st⟩ :=
  c2_streaming_batched_equivalence envW ["a"] "q" "m" 1 1
    (streamBody envW ["a"] "q" "m" 1 1 200)
    (stream_debate_ok_of "q" "m" 1 1 rfl (by decide))

/-! ## C3 — bridge delivers exactly one terminal event, never the
sentinel -/

/-- Relayed engine events are never the close sentinel. -/
theorem toWire_ne_sentinel (e : Event) : toWire e ≠ WireEvent.sentinel := by
  cases e <;> simp [toWire]

/-- The sentinel does not occur among relayed engine events. -/
theorem sentinel_not_mem_map (l : List Event) :
    WireEvent.sentinel ∉ l.map toWire := by
  intro h
  obtain ⟨e, _, he⟩ := List.mem_map.mp h
  exact toWire_ne_sentinel e he

/-- The relay loop forwards everything before the first sentinel and
stops there, consuming it. -/
theorem deliver_append_sentinel :
    ∀ l : List WireEvent, WireEvent.sentinel ∉ l →
      deliverUntilSentinel (l ++ [WireEvent.sentinel]) = l := by
  intro l
  induction l with
  | nil => intro _; rfl
  | cons e rest ih =>
    intro h
    have he : e ≠ WireEvent.sentinel := fun hc => h (hc ▸ List.mem_cons_self e rest)
    have h' : WireEvent.sentinel ∉ rest := fun hc => h (List.mem_cons_of_mem e hc)
    cases e with
    | sentinel => exact absurd rfl he
    | step d =>
      show WireEvent.step d :: deliverUntilSentinel (rest ++ [WireEvent.sentinel]) = _
      rw [ih h']
    | done fa st q =>
      show WireEvent.done fa st q :: deliverUntilSentinel (rest ++ [WireEvent.sentinel]) = _
      rw [ih h']
    | error detail =>
      show WireEvent.error detail :: deliverUntilSentinel (rest ++ [WireEvent.sentinel]) = _
      rw [ih h']
    | ready =>
      show WireEvent.ready :: deliverUntilSentinel (rest ++ [WireEvent.sentinel]) = _
      rw [ih h']

/-- Members of a strict prefix of `X ++ [x]` are members of `X`. -/
theorem mem_of_append_strict {α : Type} :
    ∀ (pre suf X : List α) (x : α),
      pre ++ suf = X ++ [x] → suf ≠ [] → ∀ e ∈ pre, e ∈ X := by
  intro pre
  induction pre with
  | nil => intro suf X x h hs e he; simp at he
  | cons a pre' ih =>
    intro suf X x h hs e he
    cases X with
    | nil =>
      simp only [List.nil_append, List.cons_append, List.cons.injEq] at h
      obtain ⟨-, h2⟩ := h
      exact absurd (List.append_eq_nil.mp h2).2 hs
    | cons y X' =>
      simp only [List.cons_append, List.cons.injEq] at h
      obtain ⟨hay, h2⟩ := h
      rcases List.mem_cons.mp he with h' | h'
      · exact h' ▸ hay ▸ List.mem_cons_self y X'
      · exact List.mem_cons_of_mem y (ih suf X' x h2 hs e h')

/-- C3. The bridge delivers, in order, every engine event and nothing
else, ending in exactly one terminal event — the "done" event on normal
completion, or the synthesized "error" event (enqueued before the
sentinel) when the engine raises after a strict prefix of its events —
and the close sentinel itself is never delivered. -/
theorem c3_bridge_terminal_events (env : Env) (documents : List String)
    (query model_name : String) (top_k rounds : Nat) (run : EngineRun)
    (h : stream_debate env documents query model_name top_k rounds = Except.ok run) :
    (∃ (body : List DebateStep) (fa : String) (st : Stats),
      deliverUntilSentinel (bridgeQueue run.events none)
        = body.map WireEvent.step ++ [WireEvent.done fa st query] ∧
      (deliverUntilSentinel (bridgeQueue run.events none)).countP isTerminalWire = 1 ∧
      WireEvent.sentinel ∉ deliverUntilSentinel (bridgeQueue run.events none)) ∧
    (∀ pre suf msg, run.events = pre ++ suf → suf ≠ [] →
      deliverUntilSentinel (bridgeQueue pre (some msg))
          = pre.map toWire ++ [WireEvent.error ("Pipeline error: " ++ msg)] ∧
      (∀ e ∈ pre, ∃ d, e = Event.step d) ∧
      (deliverUntilSentinel (bridgeQueue pre (some msg))).countP isTerminalWire = 1 ∧
      WireEvent.sentinel ∉ deliverUntilSentinel (bridgeQueue pre (some msg)) ∧
      bridgeQueue pre (some msg)
        = pre.map toWire ++ [WireEvent.error ("Pipeline error: " ++ msg),
            WireEvent.sentinel]) := by
  obtain ⟨hrun, -, -⟩ := stream_debate_eq_ok h
  subst hrun
  obtain ⟨body, hbody⟩ :=
    streamBody_events_decomp env documents query model_name top_k rounds 200
  constructor
  · have hq : bridgeQueue (streamBody env documents query model_name top_k rounds 200).events
        none =
        (streamBody env documents query model_name top_k rounds 200).events.map toWire
          ++ [WireEvent.sentinel] := by
      simp [bridgeQueue]
    have hdel : deliverUntilSentinel (bridgeQueue
        (streamBody env documents query model_name top_k rounds 200).events none) =
        (streamBody env documents query model_name top_k rounds 200).events.map toWire := by
      rw [hq, deliver_append_sentinel _ (sentinel_not_mem_map _)]
    refine ⟨body, finalAnswerOf env documents query top_k rounds,
      statsOf env documents query model_name top_k rounds, ?_, ?_, ?_⟩
    · rw [hdel, hbody]
      simp [toWire, Function.comp]
    · rw [hdel, hbody]
      simp only [List.map_append, List.countP_append]
      have h0 : ((body.map Event.step).map toWire).countP isTerminalWire = 0 :=
        List.countP_eq_zero.mpr (fun w hw => by
          rw [List.map_map] at hw
          obtain ⟨d, -, hd⟩ := List.mem_map.mp hw
          rw [← hd]
          simp [toWire, isTerminalWire])
      rw [h0]
      rfl
    · rw [hdel]
      exact sentinel_not_mem_map _
  · intro pre suf msg hsplit hsuf
    have hmem : ∀ e ∈ pre, ∃ d, e = Event.step d := by
      intro e he
      have : e ∈ body.map Event.step :=
        mem_of_append_strict pre suf (body.map Event.step) _
          (hsplit ▸ hbody) hsuf e he
      obtain ⟨d, -, hd⟩ := List.mem_map.mp this
      exact ⟨d, hd.symm⟩
    have hq : bridgeQueue pre (some msg)
        = pre.map toWire ++ [WireEvent.error ("Pipeline error: " ++ msg),
            WireEvent.sentinel] := by
      simp [bridgeQueue]
    have hnos : WireEvent.sentinel ∉
        pre.map toWire ++ [WireEvent.error ("Pipeline error: " ++ msg)] := by
      intro hc
      rcases List.mem_append.mp hc with hc | hc
      · exact sentinel_not_mem_map pre hc
      · simp at hc
    have hdel : deliverUntilSentinel (bridgeQueue pre (some msg))
        = pre.map toWire ++ [WireEvent.error ("Pipeline error: " ++ msg)] := by
      rw [hq]
      have hass : pre.map toWire ++ [WireEvent.error ("Pipeline error: " ++ msg),
          WireEvent.sentinel]
          = (pre.map toWire ++ [WireEvent.error ("Pipeline error: " ++ msg)])
            ++ [WireEvent.sentinel] := by simp
      rw [hass, deliver_append_sentinel _ hnos]
    refine ⟨hdel, hmem, ?_, ?_, hq⟩
    · rw [hdel]
      simp only [List.countP_append]
      have h0 : (pre.map toWire).countP isTerminalWire = 0 :=
        List.countP_eq_zero.mpr (fun w hw => by
          obtain ⟨e, hee, hwe⟩ := List.mem_map.mp hw
          obtain ⟨d, hd⟩ := hmem e hee
          rw [← hwe, hd]
          simp [toWire, isTerminalWire])
      rw [h0]
      rfl
    · rw [hdel]
      exact hnos

/-- Witness for C3: the normal path on a concrete run, and the raising
path instantiated with the empty produced prefix. -/
theorem c3_bridge_terminal_events_witness :
    (∃ (body : List DebateStep) (fa : String) (st : Stats),
      deliverUntilSentinel (bridgeQueue (streamBody envW ["a"] "q" "m" 1 1 200).events none)
        = body.map WireEvent.step ++ [WireEvent.done fa st "q"] ∧
      (deliverUntilSentinel
        (bridgeQueue (streamBody envW ["a"] "q" "m" 1 1 200).events none)).countP
          isTerminalWire = 1 ∧
      WireEvent.sentinel ∉ deliverUntilSentinel
        (bridgeQueue (streamBody envW ["a"] "q" "m" 1 1 200).events none)) ∧
    (deliverUntilSentinel (bridgeQueue [] (some "boom"))
        = [WireEvent.error ("Pipeline error: " ++ "boom")] ∧
      (deliverUntilSentinel (bridgeQueue [] (some "boom"))).countP isTerminalWire = 1 ∧
      WireEvent.sentinel ∉ deliverUntilSentinel (bridgeQueue [] (some "boom")) ∧
      bridgeQueue [] (some "boom")
        = [WireEvent.error ("Pipeline error: " ++ "boom"), WireEvent.sentinel]) := by
  have h := c3_bridge_terminal_events envW ["a"] "q" "m" 1 1
    (streamBody envW ["a"] "q" "m" 1 1 200)
    (stream_debate_ok_of "q" "m" 1 1 rfl (by decide))
  refine ⟨h.1, ?_⟩
  have h2 := h.2 [] (streamBody envW ["a"] "q" "m" 1 1 200).events "boom"
    rfl (by decide)
  exact ⟨by simpa using h2.1, h2.2.2.1, h2.2.2.2.1, by simpa using h2.2.2.2.2⟩

/-! ## C7 — data freshness across rounds -/

/-- The round loop, started on the round-`k` state, threads exactly the
spec's round state: answers are replaced wholesale each round and the
final answer set is the round-`k + n` one; and every call it makes is the
per-round spec trace (round `r` debate prompts built from the round
`r - 1` answers and guidance, then the ambiguity re-check on the new
answers). -/
theorem debateRounds_spec (env : Env) (query : String) (retrieved : List Chunk) :
    ∀ (n k : Nat),
      (debateRounds env query retrieved (k + 1) n
          (answersAfter env query retrieved k)
          (guidanceAfter env query retrieved k)).answers
        = answersAfter env query retrieved (k + n) ∧
      (debateRounds env query retrieved (k + 1) n
          (answersAfter env query retrieved k)
          (guidanceAfter env query retrieved k)).calls
        = ((List.range' (k + 1) n).map
            (fun r => roundCallsSpec env query retrieved r)).flatten := by
  intro n
  induction n with
  | zero =>
    intro k
    exact ⟨rfl, rfl⟩
  | succ n ih =>
    intro k
    have hpass_ans : (debateChunkLoop env query (answersAfter env query retrieved k)
        (guidanceAfter env query retrieved k) (k + 1) 1 retrieved).answers
        = answersAfter env query retrieved (k + 1) := by
      rw [debateChunkLoop_answers]
      rfl
    have hpass_calls := debateChunkLoop_calls env query
      (answersAfter env query retrieved k) (guidanceAfter env query retrieved k)
      (k + 1) retrieved 1
    have hguid : runAgent env query (ambiguityPrompt query (String.intercalate "\n"
        (debateChunkLoop env query (answersAfter env query retrieved k)
          (guidanceAfter env query retrieved k) (k + 1) 1 retrieved).answers))
        = guidanceAfter env query retrieved (k + 1) := by
      rw [hpass_ans]
      rfl
    obtain ⟨ih_ans, ih_calls⟩ := ih (k + 1)
    have harith : k + 1 + n = k + (n + 1) := by omega
    have hguid' : runAgent env query (ambiguityPrompt query (String.intercalate "\n"
        (answersAfter env query retrieved (k + 1))))
        = guidanceAfter env query retrieved (k + 1) := rfl
    constructor
    · simp only [debateRounds]
      rw [hpass_ans, hguid', ih_ans, harith]
    · simp only [debateRounds]
      rw [hpass_calls, hpass_ans, hguid', ih_calls, List.range'_succ]
      simp [List.flatten_cons, roundCallsSpec, guidanceAfter]

/-- C7. The completion-service call trace of a run is exactly: one
evidence prompt per retrieved chunk; the round-0 ambiguity check over the
evidence answers; for each round `r = 1..rounds`, one debate prompt per
chunk carrying the *full round `r-1` answer set* and the *round `r-1`
guidance* (never stale copies), followed by the ambiguity re-check over
the freshly replaced round-`r` answers; and finally the synthesis prompt
over exactly the final round's answer set. -/
theorem c7_round_data_freshness (env : Env) (documents : List String)
    (query model_name : String) (top_k rounds : Nat) (run : EngineRun)
    (h : stream_debate env documents query model_name top_k rounds = Except.ok run) :
    run.calls =
      (retrievedDocs env documents query top_k).map
          (fun doc => (⟨query, evidencePrompt query doc.page_content⟩ : AgentCall))
        ++ [⟨query, ambiguityPrompt query (String.intercalate "\n"
              (answersAfter env query (retrievedDocs env documents query top_k) 0))⟩]
        ++ ((List.range' 1 rounds).map
              (fun r => roundCallsSpec env query
                (retrievedDocs env documents query top_k) r)).flatten
        ++ [⟨query, summarizerPrompt query (String.intercalate "\n"
              (answersAfter env query (retrievedDocs env documents query top_k)
                rounds))⟩] := by
  obtain ⟨hrun, -, -⟩ := stream_debate_eq_ok h
  subst hrun
  have hev_ans : (evidenceLoop env query 1 (retrievedDocs env documents query top_k)).answers
      = answersAfter env query (retrievedDocs env documents query top_k) 0 := by
    rw [evidenceLoop_answers]
    rfl
  have hev_calls := evidenceLoop_calls env query (retrievedDocs env documents query top_k) 1
  obtain ⟨hdr_ans, hdr_calls⟩ :=
    debateRounds_spec env query (retrievedDocs env documents query top_k) rounds 0
  rw [Nat.zero_add] at hdr_ans hdr_calls
  have hgg : guidanceAfter env query (retrievedDocs env documents query top_k) 0
      = runAgent env query (ambiguityPrompt query (String.intercalate "\n"
          (answersAfter env query (retrievedDocs env documents query top_k) 0))) := rfl
  simp only [streamBody]
  rw [hev_calls, hev_ans, ← hgg, hdr_calls, hdr_ans]
  simp

/-- Witness for C7 at a concrete one-chunk, one-round run. -/
theorem c7_round_data_freshness_witness :
    (streamBody envW ["a"] "q" "m" 1 1 200).calls =
      (retrievedDocs envW ["a"] "q" 1).map
          (fun doc => (⟨"q", evidencePrompt "q" doc.page_content⟩ : AgentCall))
        ++ [⟨"q", ambiguityPrompt "q" (String.intercalate "\n"
              (answersAfter envW "q" (retrievedDocs envW ["a"] "q" 1) 0))⟩]
        ++ ((List.range' 1 1).map
              (fun r => roundCallsSpec envW "q" (retrievedDocs envW ["a"] "q" 1) r)).flatten
        ++ [⟨"q", summarizerPrompt "q" (String.intercalate "\n"
              (answersAfter envW "q" (retrievedDocs envW ["a"] "q" 1) 1))⟩] :=
  c7_round_data_freshness envW ["a"] "q" "m" 1 1
    (streamBody envW ["a"] "q" "m" 1 1 200)
    (stream_debate_ok_of "q" "m" 1 1 rfl (by decide))

/-! ## C10 — zero retrieved chunks -/

/-- With no retrieved chunks the round loop only re-runs the ambiguity
check each round, on the empty concatenated answer string. -/
theorem debateRounds_nil (env : Env) (query : String) :
    ∀ (n k0 : Nat) (guidance : String),
      debateRounds env query [] k0 n [] guidance =
        ⟨(List.range' k0 n).map (fun r => Event.step ⟨"ambiguity", "Ambiguity Solver",
            runAgent env query (ambiguityPrompt query ""), some r, none⟩),
          [],
          (if n = 0 then guidance else runAgent env query (ambiguityPrompt query "")),
          (List.range' k0 n).map
            (fun _ => (⟨query, ambiguityPrompt query ""⟩ : AgentCall))⟩ := by
  intro n
  induction n with
  | zero => intro k0 guidance; rfl
  | succ n ih =>
    intro k0 guidance
    simp only [debateRounds, debateChunkLoop]
    rw [ih]
    have hjoin : String.intercalate "\n" ([] : List String) = "" := rfl
    simp [List.range'_succ, hjoin, ite_self]

/-- C10. With zero retrieved chunks the pipeline still runs to
completion: the retrieval step reports the fixed fallback text, no
evidence or debate step is emitted, the ambiguity check (round 0 and each
round) and the synthesis are invoked on the empty concatenated answer
string, and the terminal "done" event carries `stats.retrieved = 0`. -/
theorem c10_zero_retrieved (env : Env) (documents : List String)
    (query model_name : String) (top_k rounds : Nat) (run : EngineRun)
    (h : stream_debate env documents query model_name top_k rounds = Except.ok run)
    (hret : retrievedDocs env documents query top_k = []) :
    run.events =
      [Event.step ⟨"setup", "System",
          "Received " ++ toString (cleanedDocs documents).length ++
            " documents. Split into " ++ toString (allSplits env documents).length ++
            " chunks.", none, none⟩,
        Event.step ⟨"indexing", "Indexer", "Embedding documents for retrieval...",
          none, none⟩,
        Event.step ⟨"setup", "System", "Retrieved 0 chunks for the query.", none, none⟩,
        Event.step ⟨"retrieval", "Retriever", "No chunks retrieved.", none, none⟩,
        Event.step ⟨"ambiguity", "Ambiguity Solver",
          runAgent env query (ambiguityPrompt query ""), some 0, none⟩]
      ++ (List.range' 1 rounds).map (fun r => Event.step ⟨"ambiguity", "Ambiguity Solver",
            runAgent env query (ambiguityPrompt query ""), some r, none⟩)
      ++ [Event.step ⟨"synthesis", "Synthesizer",
            runAgent env query (summarizerPrompt query ""), some rounds, none⟩,
          Event.done (runAgent env query (summarizerPrompt query ""))
            ⟨(cleanedDocs documents).length, (allSplits env documents).length, 0,
              model_name, rounds, env.embeddingSeconds⟩ query] ∧
    run.calls =
      (⟨query, ambiguityPrompt query ""⟩ : AgentCall) ::
        ((List.range' 1 rounds).map
            (fun _ => (⟨query, ambiguityPrompt query ""⟩ : AgentCall))
          ++ [⟨query, summarizerPrompt query ""⟩]) := by
  obtain ⟨hrun, -, -⟩ := stream_debate_eq_ok h
  subst hrun
  have hjoin : String.intercalate "\n" ([] : List String) = "" := rfl
  constructor
  · simp only [streamBody]
    rw [hret]
    simp only [evidenceLoop]
    rw [debateRounds_nil]
    simp +decide [retrievalLines, hjoin]
  · simp only [streamBody]
    rw [hret]
    simp only [evidenceLoop]
    rw [debateRounds_nil]
    simp +decide [hjoin]

/-- Witness for C10 at a concrete run whose retriever returns nothing. -/
theorem c10_zero_retrieved_witness :
    (streamBody envEmptySearch ["a"] "q" "m" 1 1 200).events =
      [Event.step ⟨"setup", "System",
          "Received " ++ toString (cleanedDocs ["a"]).length ++
            " documents. Split into " ++ toString (allSplits envEmptySearch ["a"]).length ++
            " chunks.", none, none⟩,
        Event.step ⟨"indexing", "Indexer", "Embedding documents for retrieval...",
          none, none⟩,
        Event.step ⟨"setup", "System", "Retrieved 0 chunks for the query.", none, none⟩,
        Event.step ⟨"retrieval", "Retriever", "No chunks retrieved.", none, none⟩,
        Event.step ⟨"ambiguity", "Ambiguity Solver",
          runAgent envEmptySearch "q" (ambiguityPrompt "q" ""), some 0, none⟩]
      ++ (List.range' 1 1).map (fun r => Event.step ⟨"ambiguity", "Ambiguity Solver",
            runAgent envEmptySearch "q" (ambiguityPrompt "q" ""), some r, none⟩)
      ++ [Event.step ⟨"synthesis", "Synthesizer",
            runAgent envEmptySearch "q" (summarizerPrompt "q" ""), some 1, none⟩,
          Event.done (runAgent envEmptySearch "q" (summarizerPrompt "q" ""))
            ⟨(cleanedDocs ["a"]).length, (allSplits envEmptySearch ["a"]).length, 0,
              "m", 1, envEmptySearch.embeddingSeconds⟩ "q"] ∧
    (streamBody envEmptySearch ["a"] "q" "m" 1 1 200).calls =
      (⟨"q", ambiguityPrompt "q" ""⟩ : AgentCall) ::
        ((List.range' 1 1).map
            (fun _ => (⟨"q", ambiguityPrompt "q" ""⟩ : AgentCall))
          ++ [⟨"q", summarizerPrompt "q" ""⟩]) :=
  c10_zero_retrieved envEmptySearch ["a"] "q" "m" 1 1
    (streamBody envEmptySearch ["a"] "q" "m" 1 1 200)
    (stream_debate_ok_of "q" "m" 1 1 rfl (by decide)) rfl

end DebateRAG
